import Mathlib

/-!
Verification development for the `metacopy` copy engine
(`src/metacopy/command.py`).  The Python functions are shallowly embedded:
JSON-like dynamic values become the inductive `JValue`, database rows become
association lists `Row`, the run-scoped id-translation `defaultdict(dict)`
maps become association lists `IdMap`, fallible Python code returns
`Except String`, and the stateful database handle (`db` with its `_cache`
and the card table touched by inserts) becomes explicit state passing in
the monad `M`.  Recursion through on-demand nested card copies is made
total with a fuel parameter; fuel exhaustion is a distinguished error
(Python would hit the recursion limit there).
-/

/-- Dynamic JSON-like values: the payload of `dataset_query` /
`parameter_mappings` and the cell values of rows. -/
inductive JValue where
  | null : JValue
  | bool : Bool → JValue
  | num : Int → JValue
  | str : String → JValue
  | arr : List JValue → JValue
  | obj : List (String × JValue) → JValue

mutual

/-- Decidable equality on `JValue` (written by hand: the nested inductive
is out of reach of automatic deriving in this toolchain). -/
def jdec : (a b : JValue) → Decidable (a = b)
  | .null, .null => isTrue rfl
  | .null, .bool _ => isFalse nofun
  | .null, .num _ => isFalse nofun
  | .null, .str _ => isFalse nofun
  | .null, .arr _ => isFalse nofun
  | .null, .obj _ => isFalse nofun
  | .bool _, .null => isFalse nofun
  | .bool x, .bool y =>
      match decEq x y with
      | isTrue h => isTrue (h ▸ rfl)
      | isFalse h => isFalse (fun hh => h (by cases hh; rfl))
  | .bool _, .num _ => isFalse nofun
  | .bool _, .str _ => isFalse nofun
  | .bool _, .arr _ => isFalse nofun
  | .bool _, .obj _ => isFalse nofun
  | .num _, .null => isFalse nofun
  | .num _, .bool _ => isFalse nofun
  | .num x, .num y =>
      match decEq x y with
      | isTrue h => isTrue (h ▸ rfl)
      | isFalse h => isFalse (fun hh => h (by cases hh; rfl))
  | .num _, .str _ => isFalse nofun
  | .num _, .arr _ => isFalse nofun
  | .num _, .obj _ => isFalse nofun
  | .str _, .null => isFalse nofun
  | .str _, .bool _ => isFalse nofun
  | .str _, .num _ => isFalse nofun
  | .str x, .str y =>
      match decEq x y with
      | isTrue h => isTrue (h ▸ rfl)
      | isFalse h => isFalse (fun hh => h (by cases hh; rfl))
  | .str _, .arr _ => isFalse nofun
  | .str _, .obj _ => isFalse nofun
  | .arr _, .null => isFalse nofun
  | .arr _, .bool _ => isFalse nofun
  | .arr _, .num _ => isFalse nofun
  | .arr _, .str _ => isFalse nofun
  | .arr xs, .arr ys =>
      match jdecList xs ys with
      | isTrue h => isTrue (h ▸ rfl)
      | isFalse h => isFalse (fun hh => h (by cases hh; rfl))
  | .arr _, .obj _ => isFalse nofun
  | .obj _, .null => isFalse nofun
  | .obj _, .bool _ => isFalse nofun
  | .obj _, .num _ => isFalse nofun
  | .obj _, .str _ => isFalse nofun
  | .obj _, .arr _ => isFalse nofun
  | .obj xs, .obj ys =>
      match jdecObj xs ys with
      | isTrue h => isTrue (h ▸ rfl)
      | isFalse h => isFalse (fun hh => h (by cases hh; rfl))

/-- Decidable equality on lists of `JValue`. -/
def jdecList : (xs ys : List JValue) → Decidable (xs = ys)
  | [], [] => isTrue rfl
  | [], _ :: _ => isFalse nofun
  | _ :: _, [] => isFalse nofun
  | x :: xs, y :: ys =>
      match jdec x y with
      | isTrue h1 =>
          match jdecList xs ys with
          | isTrue h2 => isTrue (by rw [h1, h2])
          | isFalse h2 => isFalse (fun hh => h2 (by cases hh; rfl))
      | isFalse h1 => isFalse (fun hh => h1 (by cases hh; rfl))

/-- Decidable equality on key-value lists of `JValue`. -/
def jdecObj : (xs ys : List (String × JValue)) → Decidable (xs = ys)
  | [], [] => isTrue rfl
  | [], _ :: _ => isFalse nofun
  | _ :: _, [] => isFalse nofun
  | (k, v) :: xs, (k', v') :: ys =>
      match decEq k k' with
      | isTrue hk =>
          match jdec v v' with
          | isTrue h1 =>
              match jdecObj xs ys with
              | isTrue h2 => isTrue (by rw [hk, h1, h2])
              | isFalse h2 => isFalse (fun hh => h2 (by cases hh; rfl))
          | isFalse h1 => isFalse (fun hh => h1 (by cases hh; rfl))
      | isFalse hk => isFalse (fun hh => hk (by cases hh; rfl))

end

instance : DecidableEq JValue := jdec

/-- A database row, as the Python code sees it: a dict from column name to
value (modelled as an association list with the dict's insertion order). -/
abbrev Row := List (String × JValue)

/-- Update-or-append on an association list: the semantics of `d[k] = v` on
a Python dict. -/
def assocSet {κ ν : Type} [BEq κ] : List (κ × ν) → κ → ν → List (κ × ν)
  | [], k, v => [(k, v)]
  | (k', v') :: rest, k, v =>
      if k' == k then (k, v) :: rest else (k', v') :: assocSet rest k v

/-- Remove the first binding of a key: the effect of `d.pop(k, default)`. -/
def assocErase {κ ν : Type} [BEq κ] : List (κ × ν) → κ → List (κ × ν)
  | [], _ => []
  | (k', v') :: rest, k => if k' == k then rest else (k', v') :: assocErase rest k

/-- `row[k]` as a total lookup. -/
def rowGet (r : Row) (k : String) : Option JValue := r.lookup k

/-- `row[k]`, raising `KeyError` when the key is absent. -/
def rowGetE (r : Row) (k : String) : Except String JValue :=
  match r.lookup k with
  | some v => Except.ok v
  | none => Except.error ("KeyError: " ++ k)

/-- `row[k] = v`. -/
def rowSet (r : Row) (k : String) (v : JValue) : Row := assocSet r k v

/-- `row.pop(k, None)`: removal that never fails. -/
def rowErase (r : Row) (k : String) : Row := assocErase r k

/-- `row.pop(k)`: removal that raises `KeyError` when the key is absent. -/
def rowPopE (r : Row) (k : String) : Except String Row :=
  match r.lookup k with
  | some _ => Except.ok (rowErase r k)
  | none => Except.error ("KeyError: " ++ k)

/-- Coerce a dynamic value to a string; Python raises a `TypeError` /
`AttributeError` when string methods hit a non-string. -/
def asStr : JValue → Except String String
  | .str s => Except.ok s
  | _ => Except.error "TypeError: expected str"


/-- Strip a leading pattern from a character list: `some rest` when `s`
starts with `p` (the reducible core of `startswith` tests). -/
def dropLead : List Char → List Char → Option (List Char)
  | [], s => some s
  | _, [] => none
  | p :: ps, c :: cs => if c = p then dropLead ps cs else none

/-- Accumulate a digit string's value; `none` on a non-digit. -/
def digitsValGo : List Char → Nat → Option Nat
  | [], acc => some acc
  | c :: rest, acc =>
      if c.isDigit then digitsValGo rest (10 * acc + (c.toNat - 48)) else none

/-- The value of a non-empty all-digit character list. -/
def digitsVal : List Char → Option Nat
  | [] => none
  | cs => digitsValGo cs 0

/-- Python's `int(s)` on the strings the engine feeds it: optional minus
sign followed by digits. -/
def pyInt (s : String) : Option Int :=
  match s.data with
  | '-' :: rest => (digitsVal rest).map (fun n => -(n : Int))
  | cs => (digitsVal cs).map (fun n => (n : Int))

/-- Python's `s.split("/")` on the character list. -/
def splitSlash : List Char → List (List Char)
  | [] => [[]]
  | c :: rest =>
    if c = '/' then [] :: splitSlash rest
    else
      match splitSlash rest with
      | seg :: segs => (c :: seg) :: segs
      | [] => [[c]]

/-- Python's `s.split("/")`. -/
def strSplitSlash (s : String) : List String := (splitSlash s.data).map String.mk

/-- Python's `s.replace("", r)`: the replacement lands between every pair
of characters and at both ends. -/
def interAll (r : List Char) : List Char → List Char
  | [] => r
  | c :: rest => r ++ c :: interAll r rest

/-- The scan of Python's `s.replace(p, r)` for a non-empty pattern:
left-to-right, non-overlapping; the fuel is the length of `s` (each step
consumes at least one character). -/
def replaceGo (p r : List Char) : List Char → Nat → List Char
  | s, 0 => s
  | [], _ => []
  | c :: rest, n + 1 =>
    match dropLead p (c :: rest) with
    | some rem => r ++ replaceGo p r rem n
    | none => c :: replaceGo p r rest n

/-- Python's `s.replace(p, r)` over character lists. -/
def replaceCL (p r s : List Char) : List Char :=
  if p.isEmpty then interAll r s else replaceGo p r s s.length

/-- Python's `s.replace(p, r)`. -/
def strReplace (s p r : String) : String := String.mk (replaceCL p.data r.data s.data)

/-- The run-scoped id-translation maps (`collections`, `cards`, ...):
`defaultdict(dict)` keyed by a source id, each value mapping a target
database id to the freshly created id in that target. -/
abbrev IdMap := List (JValue × List (Int × Int))

/-- The external store's single-row retrieval.  Modelled from the spec: the
data-access collaborator's `.one()` is not part of this repository; per the
spec's error taxonomy (sections 4.2 and 7) an empty result during
resolution is fatal, so a missing row becomes an `Except.error`. -/
def one {α : Type} (x : Option α) (msg : String) : Except String α :=
  match x with
  | some v => Except.ok v
  | none => Except.error msg

/-- `m[k][target]` on a `defaultdict(dict)` id-translation map: a missing
outer key auto-vivifies an empty dict, so both a missing outer key and a
missing target key raise `KeyError` on the inner access. -/
def idMapGet (m : IdMap) (k : JValue) (target : Int) : Except String Int :=
  match m.lookup k with
  | some tm => one (tm.lookup target) ("KeyError: " ++ toString target)
  | none => Except.error ("KeyError: " ++ toString target)

/-- `m[k][target] = v` on the id-translation map (vivifying the inner dict). -/
def idMapSet (m : IdMap) (k : JValue) (target : Int) (v : Int) : IdMap :=
  match m.lookup k with
  | some tm => assocSet m k (assocSet tm target v)
  | none => (k, [(target, v)]) :: m

/-- The segment loop of `remap_collection_location`: walks the split path
segments with the source's `can_fail` flag.  Each segment is `int()`-parsed;
a segment found in the map is replaced by its target id and clears
`can_fail`; a segment not in the map passes through while `can_fail` holds
and otherwise raises the source's `ValueError`. -/
def remapParts (location : String) (target : Int) (collections : IdMap) :
    List String → Bool → Except String (List String)
  | [], _ => Except.ok []
  | p :: ps, canFail =>
    match pyInt p with
    | none => Except.error ("invalid literal for int: " ++ p)
    | some part =>
      match collections.lookup (JValue.num part) with
      | some tm =>
        match tm.lookup target with
        | some newId =>
            (remapParts location target collections ps false).map
              (fun rest => toString newId :: rest)
        | none => Except.error ("KeyError: " ++ toString target)
      | none =>
        if canFail then
          (remapParts location target collections ps canFail).map
            (fun rest => p :: rest)
        else
          Except.error
            ("failed to remap location " ++ location ++ " segment: " ++ toString part)

/-- `remap_collection_location` (command.py:291-309): split the location on
slashes, remap each segment via `remapParts`, and re-join with a leading and
trailing slash. -/
def remap_collection_location (location : String) (target : Int)
    (collections : IdMap) : Except String String :=
  let parts := (strSplitSlash location).filter (fun l => l ≠ "")
  (remapParts location target collections parts true).map
    (fun ps => "/" ++ String.intercalate "/" ps ++ "/")

/-- The segment walk exactly as the specification words it (spec section
4.1): segments preceding the first segment found in the map pass through;
once any segment has been remapped (`started`), every later segment absent
from the map fails naming the path and the segment. -/
def specWalk (location : String) (target : Int) (collections : IdMap) :
    List String → Bool → Except String (List String)
  | [], _ => Except.ok []
  | p :: ps, started =>
    match pyInt p with
    | none => Except.error ("invalid literal for int: " ++ p)
    | some part =>
      match (collections.lookup (JValue.num part)).bind (fun tm => tm.lookup target) with
      | some newId =>
          (specWalk location target collections ps true).map
            (fun rest => toString newId :: rest)
      | none =>
        if started then
          Except.error
            ("failed to remap location " ++ location ++ " segment: " ++ toString part)
        else
          (specWalk location target collections ps started).map
            (fun rest => p :: rest)

/-- The location remapper as the specification describes it, built on
`specWalk`; compared against `remap_collection_location`. -/
def remapLocationSpec (location : String) (target : Int)
    (collections : IdMap) : Except String String :=
  let parts := (strSplitSlash location).filter (fun l => l ≠ "")
  (specWalk location target collections parts false).map
    (fun ps => "/" ++ String.intercalate "/" ps ++ "/")

/-- `slugify` (command.py:312-315): replace each occurrence of the
characters `.`, `_`, `(`, `)` by an underscore, in the source's order. -/
def slugify (name : String) : String :=
  strReplace (strReplace (strReplace (strReplace name "." "_") "_" "_") "(" "_") ")" "_"

/-- `s.count(c)` for a single character. -/
def countChar (s : String) (c : Char) : Nat := s.data.count c

/-- `remap_collection` (command.py:318-331): rewrite `location`; when the
rewritten path contains exactly two slashes (one remaining ancestor
segment) rename the collection to the target database's name and substitute
the slugified old name by the slugified new name inside the description;
finally drop the `id`.  The unused `db` parameter of the source is omitted. -/
def remap_collection (collection : Row) (target : Int) (collections : IdMap)
    (databases : List (Int × String)) : Except String Row := do
  let locJ ← rowGetE collection "location"
  let loc ← asStr locJ
  let newLoc ← remap_collection_location loc target collections
  let c := rowSet collection "location" (JValue.str newLoc)
  let c ←
    if countChar newLoc '/' = 2 then do
      let new_name ← one (databases.lookup target) ("KeyError: " ++ toString target)
      let nameJ ← rowGetE c "name"
      let name ← asStr nameJ
      let c := rowSet c "name" (JValue.str new_name)
      let descJ ← rowGetE c "description"
      let desc ← asStr descJ
      pure (rowSet c "description"
        (JValue.str (strReplace desc (slugify name) (slugify new_name))))
    else
      pure c
  pure (rowErase c "id")

/-- `COLLECTION_PERMISSION_REGEX.match` (pattern
`/collection/([0-9]+)/(.*)` anchored at the start): the collection id is
the longest leading digit run after `/collection/`, which must be followed
by `/`; the remainder is the rest of the line (`.` does not cross a
newline). -/
def parseCollectionObject (s : String) : Option (Int × String) :=
  match dropLead "/collection/".data s.data with
  | none => none
  | some rest =>
    let digits := rest.takeWhile Char.isDigit
    if digits.isEmpty then none
    else
      match rest.drop digits.length with
      | '/' :: after =>
        match digitsVal digits with
        | some n => some (Int.ofNat n, String.mk (after.takeWhile (fun c => c ≠ '\n')))
        | none => none
      | _ => none

/-- The per-target loop of `remap_permissions`: one fresh permission row per
target the collection was copied into, with the object rebuilt from the new
id and the remainder, and the `id` column popped. -/
def permLoop (permission : Row) (remainder : String) :
    List (Int × Int) → Except String (List Row)
  | [] => Except.ok []
  | (_, new_id) :: rest => do
      let np := rowSet permission "object"
        (JValue.str ("/collection/" ++ toString new_id ++ "/" ++ remainder))
      let np ← rowPopE np "id"
      let nrest ← permLoop permission remainder rest
      pure (np :: nrest)

/-- `remap_permissions` (command.py:163-174): parse the permission's
`object` through the collection regex (a failed match raises, as
`None.group` does) and fan out one row per target of the referenced
collection's translation entry (`defaultdict`: an uncopied collection
yields the empty dict, hence no rows). -/
def remap_permissions (permission : Row) (collections : IdMap) :
    Except String (List Row) := do
  let objJ ← rowGetE permission "object"
  let objS ← asStr objJ
  match parseCollectionObject objS with
  | none => Except.error "AttributeError: NoneType object has no attribute group"
  | some (cid, remainder) =>
      permLoop permission remainder ((collections.lookup (JValue.num cid)).getD [])

/-- The database handle: the read-only catalog oracles consulted by the
resolution queries (each documents the query it stands for), the mutable
per-run `db._cache` dictionaries, and the card table as touched by
`Card.values(...).add()` inserts. -/
structure DBState where
  /-- `Field.take("name", "table_id").get(field_id)`: name and owning table
  of a source field. -/
  fieldAttrs : JValue → Option (String × JValue)
  /-- `Field.where(name = ..., table_id = target_table).field("id").one()`:
  the id of the namesake field under the remapped table. -/
  fieldIdByName : JValue → String → Option Int
  /-- `Table.take("name", "schema").get(table_id)`: name and schema of a
  source table. -/
  tableAttrs : JValue → Option (String × String)
  /-- `Table.where(schema = ..., name = ..., db_id = target).field("id").one()`:
  the id of the same-schema same-name table in the target database. -/
  tableIdByName : Int → String → String → Option Int
  /-- `Card.key(card_id).one()` over the pre-existing card rows. -/
  cardById : Int → Option Row
  /-- `DB.take("id", "name").where(name ≈ database).one()`: target database
  resolution by (prefix or exact) name. -/
  databaseByName : String → Option (Int × String)
  cacheFieldsById : List (JValue × (String × JValue)) := []
  cacheFieldsByName : List ((JValue × String) × Int) := []
  cacheTablesById : List (JValue × (String × String)) := []
  cacheTablesByName : List ((Int × String × String) × Int) := []
  /-- Card rows inserted during this run. -/
  cards : List Row := []
  /-- The primary-key sequence backing card inserts. -/
  nextCardId : Int := 1

/-- The effect monad of the engine: explicit state passing over `DBState`
with string-labelled exceptions. -/
def M (α : Type) : Type := DBState → Except String (α × DBState)

/-- Monadic return for `M`. -/
def mpure {α : Type} (a : α) : M α := fun s => Except.ok (a, s)

/-- Monadic bind for `M`. -/
def mbind {α β : Type} (x : M α) (f : α → M β) : M β := fun s =>
  match x s with
  | .ok (a, s') => f a s'
  | .error e => Except.error e

instance : Monad M where
  pure := mpure
  bind := mbind

/-- Raising an exception in `M`. -/
def mthrow {α : Type} (e : String) : M α := fun _ => Except.error e

/-- Lift a pure `Except` computation into `M`. -/
def liftE {α : Type} (x : Except String α) : M α := fun s => x.map (fun a => (a, s))

/-- Read the current state. -/
def getS : M DBState := fun s => Except.ok (s, s)

/-- Replace the current state. -/
def setS (s : DBState) : M Unit := fun _ => Except.ok ((), s)

/-- Apply a function to the current state. -/
def modifyS (f : DBState → DBState) : M Unit := fun s => Except.ok ((), f s)

/-- `setup_cache` (command.py:502-508): install fresh, empty cache
dictionaries on the handle. -/
def setup_cache (s : DBState) : DBState :=
  { s with cacheFieldsById := [], cacheFieldsByName := [],
           cacheTablesById := [], cacheTablesByName := [] }

/-- `Card.key(card_id).one()`: card rows inserted in this run are visible to
reads, then the pre-existing table. -/
def cardLookup (s : DBState) (cid : Int) : Option Row :=
  match s.cards.find? (fun r => rowGet r "id" == some (JValue.num cid)) with
  | some r => some r
  | none => s.cardById cid

/-- `Card.values(literal([new_card])).take("id").add()`: insert one card
row, letting the store assign the next generated primary key (the
`literal(...)` SQL-quoting shim of the transport layer is semantically the
identity on the stored row and is elided). -/
def insertCardM (row : Row) : M Int := fun s =>
  let nid := s.nextCardId
  Except.ok (nid,
    { s with cards := s.cards ++ [rowSet row "id" (JValue.num nid)],
             nextCardId := nid + 1 })

/-- Does a dynamic value look like a `card__<n>` pseudo-table reference
(`isinstance(table_id, str) and table_id.startswith("card__")`)? -/
def isCardRef : JValue → Bool
  | .str s => (dropLead "card__".data s.data).isSome
  | _ => false

/-- The fetch-through-cache idiom
`if k not in db._cache[t]: db._cache[t][k] = <fetch>` followed by the cache
read, for a source field's `(name, table_id)` (command.py:365-369). -/
def cacheFieldAttrs (field_id : JValue) (s : DBState) :
    Except String ((String × JValue) × DBState) :=
  match s.cacheFieldsById.lookup field_id with
  | some attrs => Except.ok (attrs, s)
  | none =>
    match s.fieldAttrs field_id with
    | some attrs =>
        Except.ok (attrs,
          { s with cacheFieldsById := (field_id, attrs) :: s.cacheFieldsById })
    | none => Except.error "field get: no row"

/-- Fetch-through-cache of the namesake field's id under the remapped
table (command.py:372-385); per the spec an empty resolution is fatal. -/
def cacheFieldIdByName (target_table : JValue) (name : String) (s : DBState) :
    Except String (Int × DBState) :=
  match s.cacheFieldsByName.lookup (target_table, name) with
  | some fid => Except.ok (fid, s)
  | none =>
    match s.fieldIdByName target_table name with
    | some fid =>
        Except.ok (fid,
          { s with cacheFieldsByName :=
              ((target_table, name), fid) :: s.cacheFieldsByName })
    | none => Except.error ("no matching field: " ++ name)

/-- Fetch-through-cache of a source table's `(name, schema)`
(command.py:414-418). -/
def cacheTableAttrs (table_id : JValue) (s : DBState) :
    Except String ((String × String) × DBState) :=
  match s.cacheTablesById.lookup table_id with
  | some attrs => Except.ok (attrs, s)
  | none =>
    match s.tableAttrs table_id with
    | some attrs =>
        Except.ok (attrs,
          { s with cacheTablesById := (table_id, attrs) :: s.cacheTablesById })
    | none => Except.error "table get: no row"

/-- Fetch-through-cache of the same-schema same-name table's id under the
target database (command.py:421-433); per the spec an empty resolution is
fatal. -/
def cacheTableIdByName (target : Int) (schema name : String) (s : DBState) :
    Except String (Int × DBState) :=
  match s.cacheTablesByName.lookup (target, schema, name) with
  | some tid => Except.ok (tid, s)
  | none =>
    match s.tableIdByName target schema name with
    | some tid =>
        Except.ok (tid,
          { s with cacheTablesByName :=
              ((target, schema, name), tid) :: s.cacheTablesByName })
    | none => Except.error ("no matching table: " ++ schema ++ "." ++ name)

/-- The non-pseudo-table arm of `remap_table` (command.py:413-434): read the
source table's name and schema (memoized by id), then resolve the
same-schema same-name table under the target database id (memoized by the
key tuple). -/
def resolveTableByName (table_id : JValue) (target : Int) : M JValue := fun s =>
  match cacheTableAttrs table_id s with
  | .error e => Except.error e
  | .ok (tbl, s1) =>
    match cacheTableIdByName target tbl.2 tbl.1 s1 with
    | .error e => Except.error e
    | .ok (tid, s2) => Except.ok (JValue.num tid, s2)

/-- Is `xs` the 2-element `["field-id", fid]` shape of a field reference
(`len(query) == 2 and query[0] == "field-id"`)?  Returns the referenced
field id. -/
def fieldIdArg : List JValue → Option JValue
  | [x, y] => if x = JValue.str "field-id" then some y else none
  | _ => none

mutual

/-- `remap_field` (command.py:363-385): read the source field's name and
owning table (memoized by id), remap the owning table, then resolve the
namesake field under the target table (memoized by the key tuple). -/
def remap_field : Nat → JValue → Int → Option IdMap → M Int
  | 0, _, _, _ => mthrow "fuel exhausted"
  | fuel + 1, field_id, target, cards => fun s =>
    match cacheFieldAttrs field_id s with
    | .error e => Except.error e
    | .ok (fld, s1) =>
      match remap_table fuel fld.2 target cards s1 with
      | .error e => Except.error e
      | .ok (target_table, s2) => cacheFieldIdByName target_table fld.1 s2

/-- `remap_table` (command.py:388-434): a `card__<n>` pseudo-table resolves
through the card id-translation map when one is supplied (a miss raises)
and otherwise recursively copies the referenced card on demand; any other
table id resolves by schema and name in the target database. -/
def remap_table : Nat → JValue → Int → Option IdMap → M JValue
  | 0, _, _, _ => mthrow "fuel exhausted"
  | fuel + 1, table_id, target, cards =>
    match table_id with
    | .str sv =>
      if (dropLead "card__".data sv.data).isSome then do
        let stripped := strReplace sv "card__" ""
        let card_id ← liftE (one (pyInt stripped)
          ("invalid literal for int: " ++ stripped))
        match cards with
        | some m => do
            let nid ← liftE (idMapGet m (JValue.num card_id) target)
            pure (JValue.str ("card__" ++ toString nid))
        | none => do
            let s ← getS
            let card ← liftE (one (cardLookup s card_id)
              ("no card: " ++ toString card_id))
            let res ← copy_card fuel card [(target, JValue.num 1)] none none
            pure (JValue.str ("card__" ++ toString res.1))
      else resolveTableByName table_id target
    | _ => resolveTableByName table_id target

/-- `remap_query` (command.py:437-471), the list shapes: a
`["field-id", fid]` pair resolves the field, any other list is rewritten
element-wise. -/
def remap_query : Nat → JValue → Int → Option IdMap → M JValue
  | 0, _, _, _ => mthrow "fuel exhausted"
  | fuel + 1, q, target, cards =>
    match q with
    | .arr xs =>
      match fieldIdArg xs with
      | some fid => do
          let f ← remap_field fuel fid target cards
          pure (JValue.arr [JValue.str "field-id", JValue.num f])
      | none => do
          let ys ← remapList fuel xs target cards
          pure (JValue.arr ys)
    | .obj kvs => do
        let kvs' ← remapObj fuel kvs target cards
        pure (JValue.obj kvs')
    | other => pure other

/-- Element-wise rewriting of a (non-field-reference) list inside
`remap_query`. -/
def remapList : Nat → List JValue → Int → Option IdMap → M (List JValue)
  | 0, _, _, _ => mthrow "fuel exhausted"
  | _ + 1, [], _, _ => pure []
  | fuel + 1, x :: rest, target, cards => do
      let y ← remap_query fuel x target cards
      let ys ← remapList fuel rest target cards
      pure (y :: ys)

/-- The mapping arm of `remap_query` (command.py:444-469): `database` takes
the target id, `source-table` is resolved through `remap_table`,
`fingerprint` is always nulled, a non-null `card_id` resolves through the
card map when one is supplied — with no map the source references the
undefined name `card_id` and raises `NameError` — and every other key
recurses into its value. -/
def remapObj : Nat → List (String × JValue) → Int → Option IdMap → M (List (String × JValue))
  | 0, _, _, _ => mthrow "fuel exhausted"
  | _ + 1, [], _, _ => pure []
  | fuel + 1, (k, v) :: rest, target, cards => do
      let nv ←
        if k = "database" then pure (JValue.num target)
        else if k = "source-table" then remap_table fuel v target cards
        else if k = "fingerprint" then pure JValue.null
        else if k = "card_id" then
          match v with
          | .null => pure v
          | _ =>
            match cards with
            | some m => do
                let nid ← liftE (idMapGet m v target)
                pure (JValue.num nid)
            | none => mthrow "NameError: name card_id is not defined"
        else remap_query fuel v target cards
      let rest' ← remapObj fuel rest target cards
      pure ((k, nv) :: rest')

/-- `remap_card` (command.py:474-487): rewrite the embedded `dataset_query`
(the `json.loads`/`json.dumps` round trip is modelled structurally: the
field holds the parsed value), rewrite `collection_id` through the
collection map when a non-empty one is supplied (`if collections:`), and
pop the identity. -/
def remap_card : Nat → Row → Int → Option IdMap → Option IdMap → M Row
  | 0, _, _, _, _ => mthrow "fuel exhausted"
  | fuel + 1, card, target, cards, collections => do
      let q ← liftE (rowGetE card "dataset_query")
      let q' ← remap_query fuel q target cards
      let c := rowSet card "dataset_query" q'
      let c ←
        match collections with
        | some m =>
          if m.isEmpty then pure c
          else do
            let cid ← liftE (rowGetE c "collection_id")
            let nid ← liftE (idMapGet m cid target)
            pure (rowSet c "collection_id" (JValue.num nid))
        | none => pure c
      liftE (rowPopE c "id")

/-- `copy_card` (command.py:207-217): read the source card's id, then remap
and insert one copy per target database, recording each new id in the card
id-translation map when one was supplied (the Python mutates the shared
dict; the embedding returns the updated map). -/
def copy_card : Nat → Row → List (Int × JValue) → Option IdMap → Option IdMap →
    M (Int × Option IdMap)
  | 0, _, _, _, _ => mthrow "fuel exhausted"
  | fuel + 1, card, databases, cards, collections => do
      let card_id ← liftE (rowGetE card "id")
      copyCardLoop fuel card card_id databases cards collections none

/-- The `for target in databases.keys()` loop of `copy_card`; `last` holds
`new_card["id"]` of the latest insert (reading it with no iteration run is
the source's `NameError`). -/
def copyCardLoop : Nat → Row → JValue → List (Int × JValue) → Option IdMap →
    Option IdMap → Option Int → M (Int × Option IdMap)
  | 0, _, _, _, _, _, _ => mthrow "fuel exhausted"
  | _ + 1, _, _, [], cards, _, last =>
      match last with
      | some nid => pure (nid, cards)
      | none => mthrow "NameError: name new_card is not defined"
  | fuel + 1, card, card_id, (target, _) :: rest, cards, collections, _ => do
      let new_card ← remap_card fuel card target cards collections
      let nid ← insertCardM new_card
      let cards' :=
        match cards with
        | some m => some (idMapSet m card_id target nid)
        | none => none
      copyCardLoop fuel card card_id rest cards' collections (some nid)

end

/-- `copy_question` (command.py:590-620): install fresh caches, read the
source card, resolve the single target database by name, and copy the card
into it — all without opening a transaction.  Returns the new card id. -/
def copy_question (fuel : Nat) (question : Int) (database : String) : M Int := do
  modifyS setup_cache
  let s ← getS
  let source_card ← liftE (one (cardLookup s question) ("no card: " ++ toString question))
  let tdb ← liftE (one (s.databaseByName database) ("no database: " ++ database))
  let r ← copy_card fuel source_card [(tdb.1, JValue.str tdb.2)] none none
  pure r.1

/-- `CopyQuestion.handle` (command.py:765-784): reads the `--rollback`
option from the command line but does not pass it on — `copy_question` is
invoked without it. -/
def copyQuestionHandle (fuel : Nat) (question : Int) (database : String)
    (rollback : Bool) : M Int :=
  copy_question fuel question database

mutual

/-- Does a value contain only null-valued `fingerprint` keys?  The property
the output of the query rewriter must satisfy. -/
def cleanFp : JValue → Bool
  | .arr xs => cleanFpList xs
  | .obj kvs => cleanFpObj kvs
  | _ => true

/-- `cleanFp` over the elements of a list. -/
def cleanFpList : List JValue → Bool
  | [] => true
  | x :: rest => cleanFp x && cleanFpList rest

/-- `cleanFp` over the pairs of a mapping: every `fingerprint` binding is
null, and values are recursively clean. -/
def cleanFpObj : List (String × JValue) → Bool
  | [] => true
  | (k, v) :: rest =>
      (!(k == "fingerprint") || v == JValue.null) && cleanFp v && cleanFpObj rest

end

/-- Is `k` one of the keys the query rewriter treats specially? -/
def specialKey (k : String) : Bool :=
  k == "database" || k == "source-table" || k == "fingerprint" || k == "card_id"

mutual

/-- A query containing no field references and none of the rewriter's
special keys at any depth (the hypothesis of the rewrite-fixpoint
property). -/
def pureQuery : JValue → Bool
  | .arr xs => (fieldIdArg xs).isNone && pureList xs
  | .obj kvs => pureObj kvs
  | _ => true

/-- `pureQuery` over the elements of a list. -/
def pureList : List JValue → Bool
  | [] => true
  | x :: rest => pureQuery x && pureList rest

/-- `pureQuery` over the pairs of a mapping. -/
def pureObj : List (String × JValue) → Bool
  | [] => true
  | (k, v) :: rest => !(specialKey k) && pureQuery v && pureObj rest

end

mutual

/-- Fuel sufficient for `remap_query` to traverse `q` (each embedded call
consumes one unit). -/
def queryFuel : JValue → Nat
  | .arr xs => 1 + listFuel xs
  | .obj kvs => 1 + objFuel kvs
  | _ => 1

/-- Fuel sufficient for `remapList`. -/
def listFuel : List JValue → Nat
  | [] => 1
  | x :: rest => 1 + max (queryFuel x) (listFuel rest)

/-- Fuel sufficient for `remapObj`. -/
def objFuel : List (String × JValue) → Nat
  | [] => 1
  | (_, v) :: rest => 1 + max (queryFuel v) (objFuel rest)

end

/-- The transactional scope (`async with connection.transaction():`) of the
external store, per the spec's collaborator contract: the body runs against
the current state; on success its final state commits, and an exception
rolls every write back, leaving the entry state, while propagating. -/
def transactionRun {σ : Type} (body : σ → Except String σ) (s : σ) :
    Except String Unit × σ :=
  match body s with
  | .ok s' => (Except.ok (), s')
  | .error e => (Except.error e, s)

/-- The sequence of store-mutating steps inside `copy`'s transaction
(command.py:694-716), abstracted over the state type and over what each
step computes: teardown (`drop_collections`), sequence reset
(`reset_sequences`), then the four copy passes (`copy_collections`,
`copy_permissions`, `copy_dashboardcards`, `copy_cardseries`). -/
def copyChain {σ : Type}
    (dropStep resetStep collectionsStep permissionsStep dashboardcardsStep
      cardseriesStep : σ → Except String σ) (s : σ) : Except String σ := do
  let s ← dropStep s
  let s ← resetStep s
  let s ← collectionsStep s
  let s ← permissionsStep s
  let s ← dashboardcardsStep s
  let s ← cardseriesStep s
  pure s

/-- `copy` (command.py:694-718), the transaction part: the whole chain runs
inside one transaction and, when the caller passed the dry-run flag,
`raise Exception("rollback transaction")` is the final statement of the
body.  (The preceding target/base resolution of command.py:633-688 only
reads.) -/
def copy {σ : Type}
    (dropStep resetStep collectionsStep permissionsStep dashboardcardsStep
      cardseriesStep : σ → Except String σ) (rollback : Bool) (s : σ) :
    Except String Unit × σ :=
  transactionRun (fun s0 =>
    match copyChain dropStep resetStep collectionsStep permissionsStep
        dashboardcardsStep cardseriesStep s0 with
    | .ok s6 => if rollback then Except.error "rollback transaction" else Except.ok s6
    | .error e => Except.error e) s

/-- A collection row, as teardown reads it. -/
structure CollectionRow where
  id : Int
  name : String
  location : String
deriving DecidableEq, Repr

/-- A card row, as teardown reads it. -/
structure CardRow where
  id : Int
  collection_id : Int
deriving DecidableEq, Repr

/-- A dashboard row, as teardown reads it. -/
structure DashboardRow where
  id : Int
  collection_id : Int
deriving DecidableEq, Repr

/-- A dashboard-card placement row, as teardown reads it (`card_id` is
nullable: placeholder widgets). -/
structure DashboardCardRow where
  id : Int
  dashboard_id : Int
  card_id : Option Int
deriving DecidableEq, Repr

/-- A card-series row, as teardown reads it. -/
structure CardSeriesRow where
  id : Int
  dashboardcard_id : Int
deriving DecidableEq, Repr

/-- A permission row, as teardown reads it. -/
structure PermissionRow where
  id : Int
  object : String
deriving DecidableEq, Repr

/-- The six tables teardown touches. -/
structure Store where
  collections : List CollectionRow
  cards : List CardRow
  dashboards : List DashboardRow
  dashboardcards : List DashboardCardRow
  cardseries : List CardSeriesRow
  permissions : List PermissionRow
deriving DecidableEq, Repr

/-- `should_process` (command.py:490-499): with no allow-list (or an empty
one) everything passes; otherwise the lowered name must equal an entry or
start with it followed by a space. -/
def should_process (name : String) (only : Option (List String)) : Bool :=
  match only with
  | none => true
  | some os =>
    if os.isEmpty then true
    else
      let name := name.toLower
      os.any (fun o =>
        let o := o.trim.toLower
        name.startsWith (o ++ " ") || name == o)

/-- `permissions_for` (command.py:154-160): permissions whose object starts
with `/collection/` and contains `/<id>/` for one of the given collection
ids. -/
def permissions_for (permissions : List PermissionRow) (collection_ids : List Int) :
    List PermissionRow :=
  (permissions.filter (fun p => p.object.startsWith "/collection/")).filter
    (fun p => collection_ids.any
      (fun c => decide (("/" ++ toString c ++ "/").data <:+: p.object.data)))

/-- The deletion trace of teardown: each `if ids: Model.where(in ids).delete()`
statement of command.py:138-151, in the source's order, contributing one
`(table, ids)` entry when its id set is non-empty. -/
def deleteTrace (permission_ids cardseries_ids dashboardcard_ids
    other_dashboardcard_ids dashboard_ids card_ids collection_ids : List Int) :
    List (String × List Int) :=
  (if !permission_ids.isEmpty then [("permissions", permission_ids)] else []) ++
  (if !cardseries_ids.isEmpty then [("dashboardcard_series", cardseries_ids)] else []) ++
  (if !dashboardcard_ids.isEmpty then [("report_dashboardcard", dashboardcard_ids)] else []) ++
  (if !other_dashboardcard_ids.isEmpty then [("report_dashboardcard", other_dashboardcard_ids)] else []) ++
  (if !dashboard_ids.isEmpty then [("report_dashboard", dashboard_ids)] else []) ++
  (if !card_ids.isEmpty then [("report_card", card_ids)] else []) ++
  (if !collection_ids.isEmpty then [("collection", collection_ids)] else [])

/-- `drop_collections` (command.py:67-151): select the previously produced
target collections under the root (outside the base subtree, filtered by
the allow-list), compute every dependent row set, then delete — permissions,
card-series, placements (by dashboard, then by card), dashboards, cards and
finally the collections.  Returns the store after the deletes together with
the ordered deletion trace.  The source's unused `databases` parameter is
kept. -/
def drop_collections (st : Store) (databases : List (Int × String))
    (root_collection_id base_collection_id : Int) (only : Option (List String)) :
    Store × List (String × List Int) :=
  let matched := st.collections.filter (fun c =>
    c.location.startsWith ("/" ++ toString root_collection_id ++ "/") &&
    !(c.location.startsWith
      ("/" ++ toString root_collection_id ++ "/" ++ toString base_collection_id ++ "/")) &&
    !(c.id == base_collection_id))
  let collection_ids := (matched.filter (fun c => should_process c.name only)).map (fun c => c.id)
  if collection_ids.isEmpty then (st, [])
  else
    let permission_ids := (permissions_for st.permissions collection_ids).map (fun p => p.id)
    let card_ids := (st.cards.filter (fun c => collection_ids.contains c.collection_id)).map (fun c => c.id)
    let dashboard_ids := (st.dashboards.filter (fun d => collection_ids.contains d.collection_id)).map (fun d => d.id)
    let dashboardcard_ids := (st.dashboardcards.filter (fun l => dashboard_ids.contains l.dashboard_id)).map (fun l => l.id)
    let other_dashboardcard_ids := (st.dashboardcards.filter (fun l =>
      match l.card_id with
      | some cid => card_ids.contains cid
      | none => false)).map (fun l => l.id)
    let cardseries_ids := (st.cardseries.filter (fun cs => dashboardcard_ids.contains cs.dashboardcard_id)).map (fun cs => cs.id)
    let st :=
      { st with permissions := st.permissions.filter (fun p => !permission_ids.contains p.id) }
    let st :=
      { st with cardseries := st.cardseries.filter (fun cs => !cardseries_ids.contains cs.id) }
    let st :=
      { st with dashboardcards := st.dashboardcards.filter (fun l =>
          !dashboardcard_ids.contains l.id && !other_dashboardcard_ids.contains l.id) }
    let st :=
      { st with dashboards := st.dashboards.filter (fun d => !dashboard_ids.contains d.id) }
    let st :=
      { st with cards := st.cards.filter (fun c => !card_ids.contains c.id) }
    let st :=
      { st with collections := st.collections.filter (fun c => !collection_ids.contains c.id) }
    (st, deleteTrace permission_ids cardseries_ids dashboardcard_ids
      other_dashboardcard_ids dashboard_ids card_ids collection_ids)

/-- A database handle whose catalogs are all empty: the base fixture for
concrete evaluations. -/
def wEmpty : DBState where
  fieldAttrs := fun _ => none
  fieldIdByName := fun _ _ => none
  tableAttrs := fun _ => none
  tableIdByName := fun _ _ _ => none
  cardById := fun _ => none
  databaseByName := fun _ => none

/-- A concrete source card row for evaluations. -/
def wCard : Row := [("id", JValue.num 5), ("dataset_query", JValue.obj [])]

/-- A handle holding card 5 and the target database `foo` (id 2). -/
def wQuestionState : DBState :=
  { wEmpty with
      cardById := fun i => if i = 5 then some wCard else none,
      databaseByName := fun n => if n = "foo" then some (2, "foo") else none }

/-- A handle knowing the attributes of source table 3 but holding no
namesake table in any target. -/
def wTableState : DBState :=
  { wEmpty with
      tableAttrs := fun v => if v = JValue.num 3 then some ("t", "public") else none }

/-- The handle after `copy_question 5 5 "foo"` on `wQuestionState`: the
remapped copy of card 5 inserted with the generated id 1. -/
def wQuestionFinal : DBState :=
  { wQuestionState with
      cards := [[("dataset_query", JValue.obj []), ("id", JValue.num 1)]],
      nextCardId := 2 }

/-- Unfolding lemma: `M`'s do-notation bind is `mbind`. -/
theorem bindM_eq {α β : Type} (x : M α) (f : α → M β) : x >>= f = mbind x f := rfl

/-- Unfolding lemma: `M`'s pure is `mpure`. -/
theorem pureM_eq {α : Type} (a : α) : (pure a : M α) = mpure a := rfl

/-- A conditional singleton is a sublist of the singleton. -/
theorem ite_singleton_sublist {α : Type} (b : Bool) (x : α) :
    List.Sublist (if b then [x] else []) [x] := by
  cases b <;> simp

/-- Looking up the key just set by `assocSet` yields the new value. -/
theorem assocSet_lookup_self {κ ν : Type} [BEq κ] [LawfulBEq κ]
    (l : List (κ × ν)) (k : κ) (v : ν) : (assocSet l k v).lookup k = some v := by
  induction l with
  | nil => simp [assocSet, List.lookup]
  | cons kv rest ih =>
    obtain ⟨k', v'⟩ := kv
    by_cases h : k' = k
    · simp [assocSet, h, List.lookup]
    · have hb : (k' == k) = false := by simp [h]
      have hb' : (k == k') = false := by
        simp only [beq_eq_false_iff_ne, ne_eq]
        exact fun hh => h hh.symm
      simp [assocSet, hb, List.lookup, hb', ih]

/-- Looking up a different key through `assocSet` is unchanged. -/
theorem assocSet_lookup_ne {κ ν : Type} [BEq κ] [LawfulBEq κ]
    (l : List (κ × ν)) (k k' : κ) (v : ν) (h : k' ≠ k) :
    (assocSet l k v).lookup k' = l.lookup k' := by
  induction l with
  | nil =>
    have hb : (k' == k) = false := by simp [h]
    simp [assocSet, List.lookup, hb]
  | cons kv rest ih =>
    obtain ⟨k₀, v₀⟩ := kv
    by_cases h0 : k₀ = k
    · have hb0 : (k₀ == k) = true := by simp [h0]
      have hbk : (k' == k) = false := by simp [h]
      have hbk0 : (k' == k₀) = false := by rw [h0]; exact hbk
      simp [assocSet, hb0, List.lookup, hbk, hbk0]
    · have hb : (k₀ == k) = false := by simp [h0]
      by_cases h1 : k' = k₀
      · subst h1
        simp [assocSet, hb, List.lookup]
      · have hb1 : (k' == k₀) = false := by simp [h1]
        simp [assocSet, hb, List.lookup, hb1, ih]

/-- Claim C2: with the dry-run flag set, `copy` runs teardown, sequence
reset and all four copy passes inside the one enclosing transaction and
raises the rollback signal as the final step, so the transaction aborts:
the stored state after the run equals the state before it, and whenever
the step chain itself succeeds the surfaced outcome is exactly the
`rollback transaction` error. -/
theorem copy_dry_run_rolls_back : ∀ {σ : Type}
    (d r c p dc cs : σ → Except String σ) (s : σ),
    (copy d r c p dc cs true s).2 = s ∧
    (∀ s6, copyChain d r c p dc cs s = Except.ok s6 →
      (copy d r c p dc cs true s).1 = Except.error "rollback transaction") := by
  intro σ d r c p dc cs s
  constructor
  · unfold copy transactionRun
    cases h : copyChain d r c p dc cs s <;> simp [h]
  · intro s6 h
    unfold copy transactionRun
    simp [h]

/-- Witness for C2 at concrete steps over `σ := Nat`. -/
theorem copy_dry_run_rolls_back_witness :
    (copy (fun n => Except.ok (n + 1)) (fun n => Except.ok (n + 1))
      (fun n => Except.ok (n + 1)) (fun n => Except.ok (n + 1))
      (fun n => Except.ok (n + 1)) (fun n => Except.ok (n + 1)) true 0).2 = 0 ∧
    (copy (fun n => Except.ok (n + 1)) (fun n => Except.ok (n + 1))
      (fun n => Except.ok (n + 1)) (fun n => Except.ok (n + 1))
      (fun n => Except.ok (n + 1)) (fun n => Except.ok (n + 1)) true 0).1 =
      Except.error "rollback transaction" :=
  ⟨(copy_dry_run_rolls_back _ _ _ _ _ _ 0).1,
   (copy_dry_run_rolls_back _ _ _ _ _ _ 0).2 6 rfl⟩

/-- The table-name sequence of the deletion trace is always a sublist of
the canonical reverse-dependency order. -/
theorem deleteTrace_tables_sublist (a b c d e f g : List Int) :
    List.Sublist ((deleteTrace a b c d e f g).map Prod.fst)
      ["permissions", "dashboardcard_series", "report_dashboardcard",
       "report_dashboardcard", "report_dashboard", "report_card", "collection"] := by
  unfold deleteTrace
  simp only [List.map_append]
  show List.Sublist _ (["permissions"] ++ ["dashboardcard_series"] ++
    ["report_dashboardcard"] ++ ["report_dashboardcard"] ++
    ["report_dashboard"] ++ ["report_card"] ++ ["collection"])
  refine List.Sublist.append (List.Sublist.append (List.Sublist.append
    (List.Sublist.append (List.Sublist.append (List.Sublist.append ?_ ?_) ?_) ?_) ?_) ?_) ?_
  all_goals split <;> simp

/-- Claim C9: teardown's deletion trace always follows the strict
reverse-dependency order — permissions, then card-series, then
dashboard-card placements, then dashboards, then cards, then the selected
collections — i.e. the sequence of deleted tables is a sublist of that
canonical order (placements are deleted in two batches, by dashboard and by
card). -/
theorem drop_collections_delete_order :
    ∀ (st : Store) (databases : List (Int × String)) (root base : Int)
      (only : Option (List String)),
    List.Sublist (((drop_collections st databases root base only).2).map Prod.fst)
      ["permissions", "dashboardcard_series", "report_dashboardcard",
       "report_dashboardcard", "report_dashboard", "report_card", "collection"] := by
  intro st databases root base only
  unfold drop_collections
  dsimp only
  split
  · exact List.nil_sublist _
  · exact deleteTrace_tables_sublist _ _ _ _ _ _ _

/-- Claim C4 (code bug): in the standalone arm of `remap_query`'s `card_id`
handling — a non-null `card_id` value with no card id-translation map
supplied — the source references the undefined name `card_id`
(command.py:464), so instead of recursively copying the referenced card and
substituting the new id, the rewrite raises `NameError` for every such
mapping, every target and every handle state. -/
theorem remap_query_card_id_no_map_name_error :
    ∀ (fuel : Nat) (v : JValue) (rest : List (String × JValue)) (target : Int)
      (s : DBState), v ≠ JValue.null →
      remap_query (fuel + 2) (JValue.obj (("card_id", v) :: rest)) target none s =
        Except.error "NameError: name card_id is not defined" := by
  intro fuel v rest target s hv
  cases v with
  | null => exact absurd rfl hv
  | bool b => rfl
  | num n => rfl
  | str sv => rfl
  | arr xs => rfl
  | obj kvs => rfl

/-- Witness for C4: the failing input `{"card_id": 5}` with `cards=None`. -/
theorem remap_query_card_id_no_map_name_error_witness :
    remap_query 2 (JValue.obj [("card_id", JValue.num 5)]) 1 none wEmpty =
      Except.error "NameError: name card_id is not defined" :=
  remap_query_card_id_no_map_name_error 0 (JValue.num 5) [] 1 wEmpty nofun

/-- `permLoop` on a translation entry builds exactly one row per target:
the permission with its `object` rebuilt and its `id` popped. -/
theorem permLoop_eq (perm : Row) (rem : String) (idv : JValue)
    (hid : rowGet perm "id" = some idv) :
    ∀ tm : List (Int × Int),
      permLoop perm rem tm = Except.ok (tm.map (fun p =>
        rowErase (rowSet perm "object"
          (JValue.str ("/collection/" ++ toString p.2 ++ "/" ++ rem))) "id")) := by
  intro tm
  induction tm with
  | nil => rfl
  | cons hd rest ih =>
    obtain ⟨t, nid⟩ := hd
    have hlook : (rowSet perm "object"
        (JValue.str ("/collection/" ++ toString nid ++ "/" ++ rem))).lookup "id" =
        some idv := by
      have hne : "id" ≠ "object" := by decide
      rw [rowSet, assocSet_lookup_ne _ _ _ _ hne]
      exact hid
    simp only [permLoop, bind, Except.bind, rowPopE, hlook, ih, List.map, pure, Except.pure]

/-- Claim C6: a permission whose object matches `/collection/<id>/<rem>`
fans out to exactly one new row per target context the collection was
copied into — object rebuilt as `/collection/<new-id>/<rem>` with the
remainder preserved verbatim and the `id` column removed; concretely, an
object `/collection/5/read/` under the translation entry
`{101: 50, 102: 60}` yields exactly the rows `/collection/50/read/` and
`/collection/60/read/`. -/
theorem remap_permissions_fanout :
    (∀ (perm : Row) (obj : String) (cid : Int) (rem : String)
       (tmap : List (Int × Int)) (collections : IdMap) (idv : JValue),
       rowGet perm "object" = some (JValue.str obj) →
       parseCollectionObject obj = some (cid, rem) →
       collections.lookup (JValue.num cid) = some tmap →
       rowGet perm "id" = some idv →
       remap_permissions perm collections = Except.ok (tmap.map (fun p =>
         rowErase (rowSet perm "object"
           (JValue.str ("/collection/" ++ toString p.2 ++ "/" ++ rem))) "id"))) ∧
    remap_permissions
      [("id", JValue.num 1), ("object", JValue.str "/collection/5/read/"),
       ("group_id", JValue.num 7)]
      [(JValue.num 5, [(101, 50), (102, 60)])] =
      Except.ok
        [[("object", JValue.str "/collection/50/read/"), ("group_id", JValue.num 7)],
         [("object", JValue.str "/collection/60/read/"), ("group_id", JValue.num 7)]] := by
  constructor
  · intro perm obj cid rem tmap collections idv hobj hparse hcoll hid
    rw [rowGet] at hobj
    simp only [remap_permissions, bind, Except.bind, rowGetE, hobj, asStr, hparse, hcoll,
      Option.getD]
    exact permLoop_eq perm rem idv hid tmap
  · rfl

/-- Witness for C6: the fan-out theorem applied at the spec's concrete
example, stated against a permission carrying an extra column. -/
theorem remap_permissions_fanout_witness :
    remap_permissions
      [("id", JValue.num 3), ("object", JValue.str "/collection/5/read/"),
       ("group_id", JValue.num 8)]
      [(JValue.num 5, [(101, 50), (102, 60)])] =
      Except.ok
        [[("object", JValue.str "/collection/50/read/"), ("group_id", JValue.num 8)],
         [("object", JValue.str "/collection/60/read/"), ("group_id", JValue.num 8)]] :=
  remap_permissions_fanout.1 _ "/collection/5/read/" 5 "read/" [(101, 50), (102, 60)] _
    (JValue.num 3) rfl rfl rfl rfl

/-- Claim C7: when the rewritten location has exactly one remaining
ancestor segment (exactly two slashes), `remap_collection` renames the
collection to the target database's label and substitutes the slugified
old name by the slugified new name inside the description (the slug
transform turning each `.`, `_`, `(`, `)` into an underscore); at every
other rewritten depth the collection keeps its name and description, only
the location changing and the identity being dropped. -/
theorem remap_collection_rename_at_depth_two :
    (∀ (collection : Row) (target : Int) (collections : IdMap)
       (databases : List (Int × String)) (loc newLoc dbname name desc : String),
       rowGet collection "location" = some (JValue.str loc) →
       remap_collection_location loc target collections = Except.ok newLoc →
       countChar newLoc '/' = 2 →
       databases.lookup target = some dbname →
       rowGet collection "name" = some (JValue.str name) →
       rowGet collection "description" = some (JValue.str desc) →
       remap_collection collection target collections databases = Except.ok
         (rowErase (rowSet (rowSet (rowSet collection "location" (JValue.str newLoc))
           "name" (JValue.str dbname)) "description"
           (JValue.str (strReplace desc (slugify name) (slugify dbname)))) "id")) ∧
    (∀ (collection : Row) (target : Int) (collections : IdMap)
       (databases : List (Int × String)) (loc newLoc : String),
       rowGet collection "location" = some (JValue.str loc) →
       remap_collection_location loc target collections = Except.ok newLoc →
       countChar newLoc '/' ≠ 2 →
       remap_collection collection target collections databases = Except.ok
         (rowErase (rowSet collection "location" (JValue.str newLoc)) "id")) := by
  constructor
  · intro collection target collections databases loc newLoc dbname name desc
      hloc hremap hcount hdb hname hdesc
    rw [rowGet] at hloc hname hdesc
    have hname' : (rowSet collection "location" (JValue.str newLoc)).lookup "name" =
        some (JValue.str name) := by
      rw [rowSet, assocSet_lookup_ne _ _ _ _ (by decide : "name" ≠ "location")]
      exact hname
    have hdesc' : (rowSet (rowSet collection "location" (JValue.str newLoc)) "name"
        (JValue.str dbname)).lookup "description" = some (JValue.str desc) := by
      rw [rowSet, rowSet, assocSet_lookup_ne _ _ _ _ (by decide : "description" ≠ "name"),
        assocSet_lookup_ne _ _ _ _ (by decide : "description" ≠ "location")]
      exact hdesc
    simp only [remap_collection, bind, Except.bind, rowGetE, hloc, asStr, hremap, hcount,
      if_pos rfl, one, hdb, hname', hdesc', pure, Except.pure]
    rfl
  · intro collection target collections databases loc newLoc hloc hremap hcount
    rw [rowGet] at hloc
    simp only [remap_collection, bind, Except.bind, rowGetE, hloc, asStr, hremap,
      if_neg hcount, pure, Except.pure]

/-- Witness for C7: a collection remapped to `/30/` (depth two) is renamed
to the target's label and has the slugified name substituted inside its
description. -/
theorem remap_collection_rename_at_depth_two_witness :
    remap_collection
      [("id", JValue.num 9), ("location", JValue.str "/3/"),
       ("name", JValue.str "Base (x)"),
       ("description", JValue.str "copy of Base _x_ data")]
      2 [(JValue.num 3, [(2, 30)])] [(2, "Target")] =
      Except.ok
        [("location", JValue.str "/30/"), ("name", JValue.str "Target"),
         ("description", JValue.str "copy of Target data")] :=
  remap_collection_rename_at_depth_two.1
    [("id", JValue.num 9), ("location", JValue.str "/3/"),
     ("name", JValue.str "Base (x)"),
     ("description", JValue.str "copy of Base _x_ data")]
    2 [(JValue.num 3, [(2, 30)])] [(2, "Target")] "/3/" "/30/" "Target" "Base (x)"
    "copy of Base _x_ data" rfl rfl rfl rfl rfl rfl

/-- A successful association-list lookup exhibits a member. -/
theorem lookup_mem {κ ν : Type} [BEq κ] [LawfulBEq κ] :
    ∀ {l : List (κ × ν)} {k : κ} {v : ν}, l.lookup k = some v → (k, v) ∈ l := by
  intro l
  induction l with
  | nil => intro k v h; simp [List.lookup] at h
  | cons kv rest ih =>
    intro k v h
    obtain ⟨k', v'⟩ := kv
    by_cases hk : k == k'
    · rw [List.lookup, hk] at h
      have hkk : k = k' := eq_of_beq hk
      cases h
      exact hkk ▸ List.mem_cons_self _ _
    · rw [List.lookup, Bool.not_eq_true] at *
      rw [hk] at h
      exact List.mem_cons_of_mem _ (ih h)

/-- On maps whose entries all carry the target, the source's `can_fail`
walk agrees with the specification's `started` walk (the flags are
negations of each other). -/
theorem remapParts_eq_specWalk (location : String) (target : Int)
    (collections : IdMap)
    (htot : ∀ kv ∈ collections, ((kv.2).lookup target).isSome) :
    ∀ (parts : List String) (canFail : Bool),
      remapParts location target collections parts canFail =
        specWalk location target collections parts (!canFail) := by
  intro parts
  induction parts with
  | nil => intro canFail; rfl
  | cons p ps ih =>
    intro canFail
    cases hp : pyInt p with
    | none => simp [remapParts, specWalk, hp]
    | some part =>
      cases hl : collections.lookup (JValue.num part) with
      | none =>
        cases canFail with
        | true => simp [remapParts, specWalk, hp, hl, ih]
        | false => simp [remapParts, specWalk, hp, hl]
      | some tm =>
        have hs : ((tm).lookup target).isSome :=
          htot (JValue.num part, tm) (lookup_mem hl)
        obtain ⟨nid, hnid⟩ := Option.isSome_iff_exists.mp hs
        simp [remapParts, specWalk, hp, hl, hnid, ih]

/-- Claim C1: the location remapper agrees with the spec's description —
split on slashes, pass segments through until the first one found in the
map, then require every later segment to be remappable, failing with the
path and offending segment otherwise, and re-join with leading and
trailing slashes (stated as equality with `remapLocationSpec` on maps
whose entries all carry the target, plus the spec's two concrete cases:
`/1/2/3/` under `{1: {7: 10}}` fails at segment 2, and under the full map
returns `/10/20/30/`). -/
theorem remap_collection_location_correct :
    (∀ (location : String) (target : Int) (collections : IdMap),
       (∀ kv ∈ collections, ((kv.2).lookup target).isSome) →
       remap_collection_location location target collections =
         remapLocationSpec location target collections) ∧
    remap_collection_location "/1/2/3/" 7 [(JValue.num 1, [(7, 10)])] =
      Except.error "failed to remap location /1/2/3/ segment: 2" ∧
    remap_collection_location "/1/2/3/" 7
      [(JValue.num 1, [(7, 10)]), (JValue.num 2, [(7, 20)]), (JValue.num 3, [(7, 30)])] =
      Except.ok "/10/20/30/" := by
  refine ⟨?_, rfl, rfl⟩
  intro location target collections htot
  unfold remap_collection_location remapLocationSpec
  dsimp only
  rw [remapParts_eq_specWalk location target collections htot]
  rfl

/-- Witness for C1: the agreement applied to `/1/2/` under a total map. -/
theorem remap_collection_location_correct_witness :
    remap_collection_location "/1/2/" 7 [(JValue.num 1, [(7, 10)]), (JValue.num 2, [(7, 20)])] =
      remapLocationSpec "/1/2/" 7 [(JValue.num 1, [(7, 10)]), (JValue.num 2, [(7, 20)])] :=
  remap_collection_location_correct.1 "/1/2/" 7
    [(JValue.num 1, [(7, 10)]), (JValue.num 2, [(7, 20)])] (by decide)

/-- A successful `copy_card` into a single target leaves the inserted row,
carrying the returned generated id, in the final handle's card table. -/
theorem copy_card_singleton_ok : ∀ (fuel : Nat) (card : Row) (t : Int) (nmv : JValue)
    (s : DBState) (res : Int × Option IdMap) (s' : DBState),
    copy_card fuel card [(t, nmv)] none none s = Except.ok (res, s') →
    ∃ row, row ∈ s'.cards ∧ rowGet row "id" = some (JValue.num res.1) := by
  intro fuel card t nmv s res s' h
  cases fuel with
  | zero => simp [copy_card, mthrow] at h
  | succ f =>
    simp only [copy_card, bindM_eq, mbind, liftE, Except.map] at h
    cases hid : rowGetE card "id" with
    | error e => rw [hid] at h; simp at h
    | ok cid =>
      rw [hid] at h
      cases f with
      | zero => simp [copyCardLoop, mthrow] at h
      | succ g =>
        simp only [copyCardLoop, bindM_eq, mbind] at h
        cases hrc : remap_card g card t none none s with
        | error e => rw [hrc] at h; simp at h
        | ok pr =>
          obtain ⟨nc, s1⟩ := pr
          rw [hrc] at h
          simp only [insertCardM] at h
          cases g with
          | zero => simp [copyCardLoop, mthrow] at h
          | succ g2 =>
            simp only [copyCardLoop, pureM_eq, mpure] at h
            injection h with h
            injection h with hres hs
            subst hres
            subst hs
            refine ⟨rowSet nc "id" (JValue.num s1.nextCardId), ?_, ?_⟩
            · simp
            · exact assocSet_lookup_self nc "id" (JValue.num s1.nextCardId)

/-- Claim C10: the single-card entry point opens no transaction and the
command handler never forwards the dry-run flag to it — `copyQuestionHandle`
is independent of the rollback option, and on success the newly inserted
card row is present in the final stored state (nothing rolls it back). -/
theorem copy_question_persists_ignoring_rollback :
    (∀ (fuel : Nat) (q : Int) (d : String) (r₁ r₂ : Bool) (s : DBState),
       copyQuestionHandle fuel q d r₁ s = copyQuestionHandle fuel q d r₂ s) ∧
    (∀ (fuel : Nat) (q : Int) (d : String) (r : Bool) (s : DBState) (nid : Int)
       (s' : DBState),
       copyQuestionHandle fuel q d r s = Except.ok (nid, s') →
       ∃ row, row ∈ s'.cards ∧ rowGet row "id" = some (JValue.num nid)) := by
  constructor
  · intro fuel q d r₁ r₂ s
    rfl
  · intro fuel q d r s nid s' h
    simp only [copyQuestionHandle, copy_question, bindM_eq, mbind, modifyS, getS, liftE,
      one, Except.map] at h
    cases hcard : cardLookup (setup_cache s) q with
    | none =>
      simp only [hcard] at h
      exact Except.noConfusion h
    | some card =>
      simp only [hcard] at h
      cases hdb : (setup_cache s).databaseByName d with
      | none =>
        simp only [hdb] at h
        exact Except.noConfusion h
      | some tdb =>
        simp only [hdb] at h
        cases hcc : copy_card fuel card [(tdb.1, JValue.str tdb.2)] none none (setup_cache s) with
        | error e =>
          simp only [hcc] at h
          exact Except.noConfusion h
        | ok pr =>
          obtain ⟨r0, s2⟩ := pr
          simp only [hcc] at h
          simp only [pureM_eq, mpure] at h
          injection h with h
          injection h with h1 h2
          subst h2
          obtain ⟨row, hmem, hget⟩ := copy_card_singleton_ok fuel card tdb.1
            (JValue.str tdb.2) (setup_cache s) r0 s2 hcc
          exact ⟨row, hmem, h1 ▸ hget⟩

/-- Witness for C10: rollback-independence and persistence at the concrete
fixture (card 5 copied into database `foo`, new id 1). -/
theorem copy_question_persists_ignoring_rollback_witness :
    (copyQuestionHandle 5 5 "foo" true wQuestionState =
      copyQuestionHandle 5 5 "foo" false wQuestionState) ∧
    ∃ row, row ∈ wQuestionFinal.cards ∧ rowGet row "id" = some (JValue.num 1) :=
  ⟨copy_question_persists_ignoring_rollback.1 5 5 "foo" true false wQuestionState,
   copy_question_persists_ignoring_rollback.2 5 5 "foo" true wQuestionState 1
     wQuestionFinal (by rfl)⟩

/-- Claim C5: a failed name resolution in the target context is fatal and
never silently substituted — (i) a table whose schema/name pair has no
match under the target database id makes `remap_table` fail, (ii) a field
whose name has no match under the remapped table makes `remap_field` fail,
(iii) the failure propagates out of a `["field-id", _]` rewrite, and (iv) a
failed card rewrite aborts `copy_card` before any insert, so no partial
copy is attempted. -/
theorem remap_resolution_miss_fatal :
    (∀ (fuel : Nat) (table_id : JValue) (target : Int) (cards : Option IdMap)
       (s : DBState) (nm sch : String),
       isCardRef table_id = false →
       s.cacheTablesById.lookup table_id = none →
       s.tableAttrs table_id = some (nm, sch) →
       s.cacheTablesByName.lookup (target, sch, nm) = none →
       s.tableIdByName target sch nm = none →
       remap_table (fuel + 1) table_id target cards s =
         Except.error ("no matching table: " ++ sch ++ "." ++ nm)) ∧
    (∀ (fuel : Nat) (field_id : JValue) (target : Int) (cards : Option IdMap)
       (s : DBState) (nm : String) (tid tbl : JValue) (s₂ : DBState),
       s.cacheFieldsById.lookup field_id = none →
       s.fieldAttrs field_id = some (nm, tid) →
       remap_table fuel tid target cards
         { s with cacheFieldsById := (field_id, (nm, tid)) :: s.cacheFieldsById } =
         Except.ok (tbl, s₂) →
       s₂.cacheFieldsByName.lookup (tbl, nm) = none →
       s₂.fieldIdByName tbl nm = none →
       remap_field (fuel + 1) field_id target cards s =
         Except.error ("no matching field: " ++ nm)) ∧
    (∀ (fuel : Nat) (fid : JValue) (target : Int) (cards : Option IdMap)
       (s : DBState) (e : String),
       remap_field fuel fid target cards s = Except.error e →
       remap_query (fuel + 1) (JValue.arr [JValue.str "field-id", fid]) target cards s =
         Except.error e) ∧
    (∀ (fuel : Nat) (card : Row) (target : Int) (nmv cid : JValue)
       (cards collections : Option IdMap) (s : DBState) (e : String),
       rowGet card "id" = some cid →
       remap_card fuel card target cards collections s = Except.error e →
       copy_card (fuel + 2) card [(target, nmv)] cards collections s =
         Except.error e) := by
  refine ⟨?_, ?_, ?_, ?_⟩
  · intro fuel table_id target cards s nm sch hcr hc1 hattr hc2 horacle
    have hbranch : remap_table (fuel + 1) table_id target cards s =
        resolveTableByName table_id target s := by
      cases table_id with
      | str sv =>
        simp only [remap_table]
        simp only [isCardRef] at hcr
        rw [hcr]
        simp
      | null => rfl
      | bool b => rfl
      | num n => rfl
      | arr xs => rfl
      | obj kvs => rfl
    rw [hbranch]
    simp only [resolveTableByName, cacheTableAttrs, hc1, hattr, cacheTableIdByName,
      hc2, horacle]
  · intro fuel field_id target cards s nm tid tbl s₂ hc1 hattr hrt hc2 horacle
    simp only [remap_field, cacheFieldAttrs, hc1, hattr, hrt, cacheFieldIdByName,
      hc2, horacle]
  · intro fuel fid target cards s e hrf
    have harg : fieldIdArg [JValue.str "field-id", fid] = some fid := rfl
    simp only [remap_query, harg, bindM_eq, mbind, hrf]
  · intro fuel card target nmv cid cards collections s e hid hrc
    rw [rowGet] at hid
    simp only [copy_card, bindM_eq, mbind, liftE, Except.map, rowGetE, hid,
      copyCardLoop, hrc]

/-- Witness for C5: table 3 (`public.t`) has no namesake in target 9 on the
concrete fixture, so `remap_table` fails. -/
theorem remap_resolution_miss_fatal_witness :
    remap_table 1 (JValue.num 3) 9 none wTableState =
      Except.error "no matching table: public.t" :=
  remap_resolution_miss_fatal.1 0 (JValue.num 3) 9 none wTableState "t" "public"
    rfl rfl rfl rfl rfl

/-- On queries with no field references and no special keys, every
traversal level of the rewriter returns its input and leaves the handle
untouched (joint induction on fuel). -/
theorem pure_fix_all : ∀ fuel : Nat,
    (∀ (q : JValue) (target : Int) (cards : Option IdMap) (s : DBState),
       pureQuery q = true → queryFuel q ≤ fuel →
       remap_query fuel q target cards s = Except.ok (q, s)) ∧
    (∀ (xs : List JValue) (target : Int) (cards : Option IdMap) (s : DBState),
       pureList xs = true → listFuel xs ≤ fuel →
       remapList fuel xs target cards s = Except.ok (xs, s)) ∧
    (∀ (kvs : List (String × JValue)) (target : Int) (cards : Option IdMap) (s : DBState),
       pureObj kvs = true → objFuel kvs ≤ fuel →
       remapObj fuel kvs target cards s = Except.ok (kvs, s)) := by
  intro fuel
  induction fuel with
  | zero =>
    refine ⟨?_, ?_, ?_⟩
    · intro q target cards s hp hf
      cases q <;> simp [queryFuel] at hf
    · intro xs target cards s hp hf
      cases xs <;> simp [listFuel] at hf
    · intro kvs target cards s hp hf
      cases kvs <;> simp [objFuel] at hf
  | succ f ih =>
    obtain ⟨ihq, ihl, iho⟩ := ih
    refine ⟨?_, ?_, ?_⟩
    · intro q target cards s hp hf
      cases q with
      | null => rfl
      | bool b => rfl
      | num n => rfl
      | str sv => rfl
      | arr xs =>
        simp only [pureQuery, Bool.and_eq_true, Option.isNone_iff_eq_none] at hp
        obtain ⟨hfa, hpl⟩ := hp
        simp only [queryFuel] at hf
        have hlf : listFuel xs ≤ f := by omega
        simp only [remap_query, hfa, bindM_eq, mbind,
          ihl xs target cards s hpl hlf, pureM_eq, mpure]
      | obj kvs =>
        simp only [pureQuery] at hp
        simp only [queryFuel] at hf
        have hof : objFuel kvs ≤ f := by omega
        simp only [remap_query, bindM_eq, mbind,
          iho kvs target cards s hp hof, pureM_eq, mpure]
    · intro xs target cards s hp hf
      cases xs with
      | nil => rfl
      | cons x rest =>
        simp only [pureList, Bool.and_eq_true] at hp
        obtain ⟨hx, hrest⟩ := hp
        simp only [listFuel] at hf
        have h1 : queryFuel x ≤ f := by
          have := le_max_left (queryFuel x) (listFuel rest); omega
        have h2 : listFuel rest ≤ f := by
          have := le_max_right (queryFuel x) (listFuel rest); omega
        simp only [remapList, bindM_eq, mbind, ihq x target cards s hx h1,
          ihl rest target cards s hrest h2, pureM_eq, mpure]
    · intro kvs target cards s hp hf
      cases kvs with
      | nil => rfl
      | cons kv rest =>
        obtain ⟨k, v⟩ := kv
        simp only [pureObj, Bool.and_eq_true] at hp
        obtain ⟨⟨hk, hv⟩, hrest⟩ := hp
        simp only [specialKey, Bool.not_eq_true', Bool.or_eq_false_iff,
          beq_eq_false_iff_ne, ne_eq] at hk
        obtain ⟨⟨⟨hk1, hk2⟩, hk3⟩, hk4⟩ := hk
        simp only [objFuel] at hf
        have h1 : queryFuel v ≤ f := by
          have := le_max_left (queryFuel v) (objFuel rest); omega
        have h2 : objFuel rest ≤ f := by
          have := le_max_right (queryFuel v) (objFuel rest); omega
        simp only [remapObj, if_neg hk1, if_neg hk2, if_neg hk3, if_neg hk4,
          bindM_eq, mbind, ihq v target cards s hv h1,
          iho rest target cards s hrest h2, pureM_eq, mpure]

/-- Claim C8: rewriting a query containing no `field-id` pairs and no
`database`, `source-table`, `fingerprint` or `card_id` keys at any depth
returns the input itself with the handle unchanged.  (Structure sharing is
not observable in the pure embedding; the source rebuilds every list and
dict node, which the embedding mirrors.) -/
theorem remap_query_fixpoint_on_pure_queries :
    ∀ (fuel : Nat) (q : JValue) (target : Int) (cards : Option IdMap) (s : DBState),
      pureQuery q = true → queryFuel q ≤ fuel →
      remap_query fuel q target cards s = Except.ok (q, s) :=
  fun fuel q target cards s hp hf => (pure_fix_all fuel).1 q target cards s hp hf

/-- Witness for C8 at a small concrete pure query. -/
theorem remap_query_fixpoint_on_pure_queries_witness :
    remap_query 10 (JValue.obj [("a", JValue.arr [JValue.num 1, JValue.str "x"])])
      4 none wEmpty =
      Except.ok (JValue.obj [("a", JValue.arr [JValue.num 1, JValue.str "x"])], wEmpty) :=
  remap_query_fixpoint_on_pure_queries 10
    (JValue.obj [("a", JValue.arr [JValue.num 1, JValue.str "x"])]) 4 none wEmpty
    (by decide) (by decide)

/-- A successful table resolution by schema and name yields a numeric id. -/
theorem resolveTableByName_clean : ∀ (tid : JValue) (target : Int) (s : DBState)
    (v : JValue) (s' : DBState),
    resolveTableByName tid target s = Except.ok (v, s') → cleanFp v = true := by
  intro tid target s v s' h
  simp only [resolveTableByName] at h
  cases h1 : cacheTableAttrs tid s with
  | error e => simp only [h1] at h; exact Except.noConfusion h
  | ok pr =>
    obtain ⟨tbl, s1⟩ := pr
    simp only [h1] at h
    cases h2 : cacheTableIdByName target tbl.2 tbl.1 s1 with
    | error e => simp only [h2] at h; exact Except.noConfusion h
    | ok pr2 =>
      obtain ⟨tid2, s2⟩ := pr2
      simp only [h2, Except.ok.injEq, Prod.mk.injEq] at h
      obtain ⟨hv, hs⟩ := h
      subst hv
      rfl

/-- A successful `remap_table` yields a scalar (a `card__<n>` string or a
numeric id), hence a fingerprint-clean value. -/
theorem remap_table_clean : ∀ (fuel : Nat) (tid : JValue) (target : Int)
    (cards : Option IdMap) (s : DBState) (v : JValue) (s' : DBState),
    remap_table fuel tid target cards s = Except.ok (v, s') → cleanFp v = true := by
  intro fuel tid target cards s v s' h
  cases fuel with
  | zero => exact Except.noConfusion h
  | succ f =>
    cases tid with
    | str sv =>
      simp only [remap_table] at h
      by_cases hc : (dropLead "card__".data sv.data).isSome
      · rw [if_pos hc] at h
        simp only [bindM_eq, mbind, liftE, one, Except.map, pureM_eq, mpure, getS] at h
        cases hp : pyInt (strReplace sv "card__" "") with
        | none => simp only [hp] at h; exact Except.noConfusion h
        | some card_id =>
          simp only [hp] at h
          cases cards with
          | some m =>
            cases hg : idMapGet m (JValue.num card_id) target with
            | error e => simp only [hg] at h; exact Except.noConfusion h
            | ok nid =>
              simp only [hg] at h
              injection h with h3
              injection h3 with hv hs
              subst hv
              rfl
          | none =>
            simp only [bindM_eq, mbind, getS, liftE, one, Except.map, pureM_eq,
              mpure] at h
            cases hl : cardLookup s card_id with
            | none => simp only [hl] at h; exact Except.noConfusion h
            | some card =>
              simp only [hl] at h
              cases hcc : copy_card f card [(target, JValue.num 1)] none none s with
              | error e => simp only [hcc] at h; exact Except.noConfusion h
              | ok pr =>
                obtain ⟨res, s3⟩ := pr
                simp only [hcc] at h
                injection h with h3
                injection h3 with hv hs
                subst hv
                rfl
      · rw [if_neg hc] at h
        exact resolveTableByName_clean _ _ _ _ _ h
    | null => exact resolveTableByName_clean _ _ _ _ _ h
    | bool b => exact resolveTableByName_clean _ _ _ _ _ h
    | num n => exact resolveTableByName_clean _ _ _ _ _ h
    | arr xs => exact resolveTableByName_clean _ _ _ _ _ h
    | obj kvs => exact resolveTableByName_clean _ _ _ _ _ h

/-- Every traversal level of the rewriter only emits fingerprint-clean
values on success (joint induction on fuel; field and table substitutions
are scalars by the shape lemmas). -/
theorem cleanFp_all : ∀ fuel : Nat,
    (∀ (q : JValue) (target : Int) (cards : Option IdMap) (s : DBState)
       (q' : JValue) (s' : DBState),
       remap_query fuel q target cards s = Except.ok (q', s') → cleanFp q' = true) ∧
    (∀ (xs : List JValue) (target : Int) (cards : Option IdMap) (s : DBState)
       (ys : List JValue) (s' : DBState),
       remapList fuel xs target cards s = Except.ok (ys, s') → cleanFpList ys = true) ∧
    (∀ (kvs : List (String × JValue)) (target : Int) (cards : Option IdMap)
       (s : DBState) (kvs' : List (String × JValue)) (s' : DBState),
       remapObj fuel kvs target cards s = Except.ok (kvs', s') →
       cleanFpObj kvs' = true) := by
  intro fuel
  induction fuel with
  | zero =>
    refine ⟨?_, ?_, ?_⟩ <;> (intro a target cards s b s' h; exact Except.noConfusion h)
  | succ f ih =>
    obtain ⟨ihq, ihl, iho⟩ := ih
    refine ⟨?_, ?_, ?_⟩
    · intro q target cards s q' s' h
      cases q with
      | null =>
        simp only [remap_query, pureM_eq, mpure] at h
        injection h with h3
        injection h3 with hv hs
        subst hv
        rfl
      | bool b =>
        simp only [remap_query, pureM_eq, mpure] at h
        injection h with h3
        injection h3 with hv hs
        subst hv
        rfl
      | num n =>
        simp only [remap_query, pureM_eq, mpure] at h
        injection h with h3
        injection h3 with hv hs
        subst hv
        rfl
      | str sv =>
        simp only [remap_query, pureM_eq, mpure] at h
        injection h with h3
        injection h3 with hv hs
        subst hv
        rfl
      | arr xs =>
        simp only [remap_query] at h
        cases hfa : fieldIdArg xs with
        | some fid =>
          simp only [hfa, bindM_eq, mbind, pureM_eq, mpure] at h
          cases hrf : remap_field f fid target cards s with
          | error e => simp only [hrf] at h; exact Except.noConfusion h
          | ok pr =>
            obtain ⟨fd, s1⟩ := pr
            simp only [hrf] at h
            injection h with h3
            injection h3 with hv hs
            subst hv
            rfl
        | none =>
          simp only [hfa, bindM_eq, mbind, pureM_eq, mpure] at h
          cases hrl : remapList f xs target cards s with
          | error e => simp only [hrl] at h; exact Except.noConfusion h
          | ok pr =>
            obtain ⟨ys, s1⟩ := pr
            simp only [hrl] at h
            injection h with h3
            injection h3 with hv hs
            subst hv
            simp only [cleanFp]
            exact ihl xs target cards s ys s1 hrl
      | obj kvs =>
        simp only [remap_query, bindM_eq, mbind, pureM_eq, mpure] at h
        cases hro : remapObj f kvs target cards s with
        | error e => simp only [hro] at h; exact Except.noConfusion h
        | ok pr =>
          obtain ⟨kvs', s1⟩ := pr
          simp only [hro] at h
          injection h with h3
          injection h3 with hv hs
          subst hv
          simp only [cleanFp]
          exact iho kvs target cards s kvs' s1 hro
    · intro xs target cards s ys s' h
      cases xs with
      | nil =>
        simp only [remapList, pureM_eq, mpure] at h
        injection h with h3
        injection h3 with hv hs
        subst hv
        rfl
      | cons x rest =>
        simp only [remapList, bindM_eq, mbind, pureM_eq, mpure] at h
        cases h1 : remap_query f x target cards s with
        | error e => simp only [h1] at h; exact Except.noConfusion h
        | ok pr =>
          obtain ⟨y, s1⟩ := pr
          simp only [h1] at h
          cases h2 : remapList f rest target cards s1 with
          | error e => simp only [h2] at h; exact Except.noConfusion h
          | ok pr2 =>
            obtain ⟨ys0, s2⟩ := pr2
            simp only [h2] at h
            injection h with h3
            injection h3 with hv hs
            subst hv
            simp only [cleanFpList, Bool.and_eq_true]
            exact ⟨ihq x target cards s y s1 h1, ihl rest target cards s1 ys0 s2 h2⟩
    · intro kvs target cards s kvs' s' h
      cases kvs with
      | nil =>
        simp only [remapObj, pureM_eq, mpure] at h
        injection h with h3
        injection h3 with hv hs
        subst hv
        rfl
      | cons kv rest =>
        obtain ⟨k, v⟩ := kv
        simp only [remapObj, bindM_eq, mbind, pureM_eq, mpure] at h
        by_cases hk1 : k = "database"
        · simp only [if_pos hk1] at h
          try simp only [bindM_eq, mbind, pureM_eq, mpure, mthrow, liftE, Except.map] at h
          cases ho : remapObj f rest target cards s with
          | error e => simp only [ho] at h; exact Except.noConfusion h
          | ok pr =>
            obtain ⟨rest', s1⟩ := pr
            simp only [ho] at h
            injection h with h3
            injection h3 with hv hs
            subst hv
            simp only [cleanFpObj, Bool.and_eq_true]
            subst hk1
            exact ⟨⟨by simp, rfl⟩, iho rest target cards s rest' s1 ho⟩
        · by_cases hk2 : k = "source-table"
          · simp only [if_neg hk1, if_pos hk2] at h
            try simp only [bindM_eq, mbind, pureM_eq, mpure, mthrow, liftE, Except.map] at h
            cases hrt : remap_table f v target cards s with
            | error e => simp only [hrt] at h; exact Except.noConfusion h
            | ok pr =>
              obtain ⟨nv, s1⟩ := pr
              simp only [hrt] at h
              cases ho : remapObj f rest target cards s1 with
              | error e => simp only [ho] at h; exact Except.noConfusion h
              | ok pr2 =>
                obtain ⟨rest', s2⟩ := pr2
                simp only [ho] at h
                injection h with h3
                injection h3 with hv hs
                subst hv
                simp only [cleanFpObj, Bool.and_eq_true]
                subst hk2
                refine ⟨⟨by simp, ?_⟩, iho rest target cards s1 rest' s2 ho⟩
                exact remap_table_clean f v target cards s nv s1 hrt
          · by_cases hk3 : k = "fingerprint"
            · simp only [if_neg hk1, if_neg hk2, if_pos hk3] at h
              try simp only [bindM_eq, mbind, pureM_eq, mpure, mthrow, liftE, Except.map] at h
              cases ho : remapObj f rest target cards s with
              | error e => simp only [ho] at h; exact Except.noConfusion h
              | ok pr =>
                obtain ⟨rest', s1⟩ := pr
                simp only [ho] at h
                injection h with h3
                injection h3 with hv hs
                subst hv
                simp only [cleanFpObj, Bool.and_eq_true]
                exact ⟨⟨by simp, rfl⟩, iho rest target cards s rest' s1 ho⟩
            · by_cases hk4 : k = "card_id"
              · simp only [if_neg hk1, if_neg hk2, if_neg hk3, if_pos hk4] at h
                cases v with
                | null =>
                  try simp only [bindM_eq, mbind, pureM_eq, mpure, mthrow, liftE, Except.map] at h
                  cases ho : remapObj f rest target cards s with
                  | error e => simp only [ho] at h; exact Except.noConfusion h
                  | ok pr =>
                    obtain ⟨rest', s1⟩ := pr
                    simp only [ho] at h
                    injection h with h3
                    injection h3 with hv hs
                    subst hv
                    simp only [cleanFpObj, Bool.and_eq_true]
                    subst hk4
                    exact ⟨⟨by simp, rfl⟩, iho rest target cards s rest' s1 ho⟩
                | bool b =>
                  cases cards with
                  | none => exact Except.noConfusion h
                  | some m =>
                    try simp only [bindM_eq, mbind, pureM_eq, mpure, mthrow, liftE, Except.map] at h
                    cases hg : idMapGet m (JValue.bool b) target with
                    | error e => simp only [hg] at h; exact Except.noConfusion h
                    | ok nid =>
                      simp only [hg] at h
                      cases ho : remapObj f rest target (some m) s with
                      | error e => simp only [ho] at h; exact Except.noConfusion h
                      | ok pr =>
                        obtain ⟨rest', s1⟩ := pr
                        simp only [ho] at h
                        injection h with h3
                        injection h3 with hv hs
                        subst hv
                        simp only [cleanFpObj, Bool.and_eq_true]
                        subst hk4
                        exact ⟨⟨by simp, rfl⟩, iho rest target (some m) s rest' s1 ho⟩
                | num n =>
                  cases cards with
                  | none => exact Except.noConfusion h
                  | some m =>
                    try simp only [bindM_eq, mbind, pureM_eq, mpure, mthrow, liftE, Except.map] at h
                    cases hg : idMapGet m (JValue.num n) target with
                    | error e => simp only [hg] at h; exact Except.noConfusion h
                    | ok nid =>
                      simp only [hg] at h
                      cases ho : remapObj f rest target (some m) s with
                      | error e => simp only [ho] at h; exact Except.noConfusion h
                      | ok pr =>
                        obtain ⟨rest', s1⟩ := pr
                        simp only [ho] at h
                        injection h with h3
                        injection h3 with hv hs
                        subst hv
                        simp only [cleanFpObj, Bool.and_eq_true]
                        subst hk4
                        exact ⟨⟨by simp, rfl⟩, iho rest target (some m) s rest' s1 ho⟩
                | str sv =>
                  cases cards with
                  | none => exact Except.noConfusion h
                  | some m =>
                    try simp only [bindM_eq, mbind, pureM_eq, mpure, mthrow, liftE, Except.map] at h
                    cases hg : idMapGet m (JValue.str sv) target with
                    | error e => simp only [hg] at h; exact Except.noConfusion h
                    | ok nid =>
                      simp only [hg] at h
                      cases ho : remapObj f rest target (some m) s with
                      | error e => simp only [ho] at h; exact Except.noConfusion h
                      | ok pr =>
                        obtain ⟨rest', s1⟩ := pr
                        simp only [ho] at h
                        injection h with h3
                        injection h3 with hv hs
                        subst hv
                        simp only [cleanFpObj, Bool.and_eq_true]
                        subst hk4
                        exact ⟨⟨by simp, rfl⟩, iho rest target (some m) s rest' s1 ho⟩
                | arr xs =>
                  cases cards with
                  | none => exact Except.noConfusion h
                  | some m =>
                    try simp only [bindM_eq, mbind, pureM_eq, mpure, mthrow, liftE, Except.map] at h
                    cases hg : idMapGet m (JValue.arr xs) target with
                    | error e => simp only [hg] at h; exact Except.noConfusion h
                    | ok nid =>
                      simp only [hg] at h
                      cases ho : remapObj f rest target (some m) s with
                      | error e => simp only [ho] at h; exact Except.noConfusion h
                      | ok pr =>
                        obtain ⟨rest', s1⟩ := pr
                        simp only [ho] at h
                        injection h with h3
                        injection h3 with hv hs
                        subst hv
                        simp only [cleanFpObj, Bool.and_eq_true]
                        subst hk4
                        exact ⟨⟨by simp, rfl⟩, iho rest target (some m) s rest' s1 ho⟩
                | obj okvs =>
                  cases cards with
                  | none => exact Except.noConfusion h
                  | some m =>
                    try simp only [bindM_eq, mbind, pureM_eq, mpure, mthrow, liftE, Except.map] at h
                    cases hg : idMapGet m (JValue.obj okvs) target with
                    | error e => simp only [hg] at h; exact Except.noConfusion h
                    | ok nid =>
                      simp only [hg] at h
                      cases ho : remapObj f rest target (some m) s with
                      | error e => simp only [ho] at h; exact Except.noConfusion h
                      | ok pr =>
                        obtain ⟨rest', s1⟩ := pr
                        simp only [ho] at h
                        injection h with h3
                        injection h3 with hv hs
                        subst hv
                        simp only [cleanFpObj, Bool.and_eq_true]
                        subst hk4
                        exact ⟨⟨by simp, rfl⟩, iho rest target (some m) s rest' s1 ho⟩
              · simp only [if_neg hk1, if_neg hk2, if_neg hk3, if_neg hk4] at h
                try simp only [bindM_eq, mbind, pureM_eq, mpure, mthrow, liftE, Except.map] at h
                cases hq : remap_query f v target cards s with
                | error e => simp only [hq] at h; exact Except.noConfusion h
                | ok pr =>
                  obtain ⟨nv, s1⟩ := pr
                  simp only [hq] at h
                  cases ho : remapObj f rest target cards s1 with
                  | error e => simp only [ho] at h; exact Except.noConfusion h
                  | ok pr2 =>
                    obtain ⟨rest', s2⟩ := pr2
                    simp only [ho] at h
                    injection h with h3
                    injection h3 with hv hs
                    subst hv
                    simp only [cleanFpObj, Bool.and_eq_true]
                    have hbeq : (k == "fingerprint") = false := by
                      simp [hk3]
                    refine ⟨⟨by simp [hbeq], ?_⟩, iho rest target cards s1 rest' s2 ho⟩
                    exact ihq v target cards s nv s1 hq

/-- Claim C3: whenever the query rewriter succeeds, every `fingerprint`
key present in any mapping of its output holds `null`, for every input
query, target context, id-translation map and handle state. -/
theorem remap_query_fingerprints_null :
    ∀ (fuel : Nat) (q : JValue) (target : Int) (cards : Option IdMap) (s : DBState)
      (q' : JValue) (s' : DBState),
      remap_query fuel q target cards s = Except.ok (q', s') → cleanFp q' = true :=
  fun fuel q target cards s q' s' h => (cleanFp_all fuel).1 q target cards s q' s' h

/-- Witness for C3: fingerprints at two depths, non-null in the input, are
both null in the rewriter's output. -/
theorem remap_query_fingerprints_null_witness :
    cleanFp (JValue.obj [("fingerprint", JValue.null),
      ("a", JValue.obj [("fingerprint", JValue.null)])]) = true :=
  remap_query_fingerprints_null 10
    (JValue.obj [("fingerprint", JValue.num 5),
      ("a", JValue.obj [("fingerprint", JValue.bool true)])])
    1 none wEmpty
    (JValue.obj [("fingerprint", JValue.null),
      ("a", JValue.obj [("fingerprint", JValue.null)])])
    wEmpty rfl
